import Mathlib

/-
Verification of the Opportunity Detection & Position Sizing Engine and the
Position Ledger of the seren-desktop polymarket-trader skill.

Shallow embedding: Python floats are modelled as exact rationals (ℚ), Python
dicts keyed by market id as association lists preserving insertion order, and
fallible operations (division by zero, oracle/API failures) as Option.
-/

namespace PolymarketTrader

/-! ## Position ledger (src/skills/polymarket-trader/position_tracker.py) -/

/-- A single position, mirroring `Position.__init__`: `current_price` starts at
`entry_price` and `unrealized_pnl` at 0. -/
structure Position where
  market : String
  market_id : String
  token_id : String
  side : String
  entry_price : ℚ
  size : ℚ
  opened_at : String
  current_price : ℚ
  unrealized_pnl : ℚ
  deriving Repr, DecidableEq

/-- Constructor mirroring `Position.__init__(market, market_id, token_id, side,
entry_price, size, opened_at)`. -/
def Position.mk_new (market market_id token_id side : String)
    (entry_price size : ℚ) (opened_at : String) : Position :=
  { market := market, market_id := market_id, token_id := token_id,
    side := side, entry_price := entry_price, size := size,
    opened_at := opened_at, current_price := entry_price, unrealized_pnl := 0 }

/-- Embedding of `Position.update_price`. Python raises `ZeroDivisionError`
when the implied-shares denominator is zero, modelled as `none`. On the BUY
side shares = size / entry_price; on the SELL side shares = size /
(1 - entry_price); any other side only updates `current_price`. -/
def Position.update_price (pos : Position) (current_price : ℚ) : Option Position :=
  if pos.side = "BUY" then
    if pos.entry_price = 0 then none
    else
      let shares := pos.size / pos.entry_price
      some { pos with current_price := current_price,
                      unrealized_pnl := (current_price - pos.entry_price) * shares }
  else if pos.side = "SELL" then
    if 1 - pos.entry_price = 0 then none
    else
      let shares := pos.size / (1 - pos.entry_price)
      some { pos with current_price := current_price,
                      unrealized_pnl := (pos.entry_price - current_price) * shares }
  else
    some { pos with current_price := current_price }

/-- Banker's rounding to an integer, the semantics of Python's built-in
`round` on exact values: round half to even. -/
def pyRound (q : ℚ) : ℤ :=
  if q - ⌊q⌋ < 1/2 then ⌊q⌋
  else if 1/2 < q - ⌊q⌋ then ⌊q⌋ + 1
  else if ⌊q⌋ % 2 = 0 then ⌊q⌋ else ⌊q⌋ + 1

/-- Python's `round(q, 2)`: round to 2 decimal places, half to even. -/
def round2 (q : ℚ) : ℚ := (pyRound (q * 100) : ℚ) / 100

/-- The dictionary produced by `Position.to_dict`. In the JSON every key is
present; `current_price` and `unrealized_pnl` are `Option` because
`Position.from_dict` reads them with `.get` and a default. -/
structure PosDict where
  market : String
  market_id : String
  token_id : String
  side : String
  entry_price : ℚ
  current_price : Option ℚ
  size : ℚ
  unrealized_pnl : Option ℚ
  opened_at : String
  deriving Repr, DecidableEq

/-- Embedding of `Position.to_dict`: all fields serialized, with
`unrealized_pnl` rounded to 2 decimal places. -/
def Position.to_dict (pos : Position) : PosDict :=
  { market := pos.market, market_id := pos.market_id, token_id := pos.token_id,
    side := pos.side, entry_price := pos.entry_price,
    current_price := some pos.current_price, size := pos.size,
    unrealized_pnl := some (round2 pos.unrealized_pnl),
    opened_at := pos.opened_at }

/-- Embedding of `Position.from_dict`: rebuilds via the constructor, then
overrides `current_price` (default: entry price) and `unrealized_pnl`
(default: 0) from the dictionary when present. -/
def Position.from_dict (data : PosDict) : Position :=
  let pos := Position.mk_new data.market data.market_id data.token_id data.side
    data.entry_price data.size data.opened_at
  { pos with current_price := data.current_price.getD data.entry_price,
             unrealized_pnl := data.unrealized_pnl.getD 0 }

/-- A Python dict keyed by market id, as an insertion-ordered association
list: assignment to an existing key replaces the value in place. -/
def dictInsert (l : List (String × Position)) (k : String) (v : Position) :
    List (String × Position) :=
  match l with
  | [] => [(k, v)]
  | (k', v') :: rest =>
      if k' = k then (k, v) :: rest else (k', v') :: dictInsert rest k v

/-- In-memory state of `PositionTracker`: the `self.positions` dict. -/
structure PositionTracker where
  positions : List (String × Position)
  deriving Repr, DecidableEq

/-- Embedding of `PositionTracker.add_position`: builds a fresh Position with
the given fields and the current time, then executes
`self.positions[market_id] = pos` — an unconditional dict assignment. -/
def PositionTracker.add_position (tracker : PositionTracker)
    (market market_id token_id side : String) (entry_price size : ℚ)
    (now : String) : PositionTracker × Position :=
  let pos := Position.mk_new market market_id token_id side entry_price size now
  (⟨dictInsert tracker.positions market_id pos⟩, pos)

/-- Embedding of `PositionTracker.get_position`: dict lookup. -/
def PositionTracker.get_position (tracker : PositionTracker)
    (market_id : String) : Option Position :=
  tracker.positions.lookup market_id

/-! ## Position sizer (agent.py, `calculate_position_size`) -/

/-- Embedding of `PolymarketTrader.calculate_position_size`: full Kelly for an
even-money bet `(p*(b+1)-1)/b` with `b = 1`, quarter-Kelly multiplier, cap of
the absolute fraction at `max_kelly_fraction`, dollar stake against the
bankroll, and a $1 minimum. -/
def calculate_position_size (fair_value max_kelly_fraction bankroll : ℚ) : ℚ :=
  let b : ℚ := 1
  let kelly := (fair_value * (b + 1) - 1) / b
  let fraction_kelly := kelly * (1/4)
  let position_fraction := min |fraction_kelly| max_kelly_fraction
  let position_size := bankroll * position_fraction
  max position_size 1

/-! ## Rate limiter (agent.py, `_check_rate_limit`) -/

/-- Rate limit constant: 60 orders per minute (`MAX_ORDERS_PER_MINUTE`). -/
def MAX_ORDERS_PER_MINUTE : ℕ := 60

/-- Rate limit window in seconds (`RATE_LIMIT_WINDOW`). -/
def RATE_LIMIT_WINDOW : ℚ := 60

/-- The pruning loop `while self.order_timestamps and
self.order_timestamps[0] < cutoff: popleft()`: drop leading timestamps
strictly older than the cutoff. -/
def pruneTimestamps (ts : List ℚ) (cutoff : ℚ) : List ℚ :=
  match ts with
  | [] => []
  | t :: rest => if t < cutoff then pruneTimestamps rest cutoff else t :: rest

/-- Embedding of `PolymarketTrader._check_rate_limit` with `time.sleep`
modelled as advancing the clock by the computed wait. Returns the slept
duration and the timestamp deque after the call. Prune at `now - window`; if
the deque is still at the cap, wait until the oldest timestamp plus the
window, then re-prune at the new time. -/
def check_rate_limit (maxOrders : ℕ) (window : ℚ) (ts : List ℚ) (now : ℚ) :
    ℚ × List ℚ :=
  let cutoff := now - window
  let ts1 := pruneTimestamps ts cutoff
  if maxOrders ≤ ts1.length then
    match ts1 with
    | [] => (0, [])
    | oldest :: rest =>
      let wait_until := oldest + window
      let wait_seconds := wait_until - now
      if 0 < wait_seconds then
        let now2 := now + wait_seconds
        (wait_seconds, pruneTimestamps (oldest :: rest) (now2 - window))
      else (0, oldest :: rest)
  else (0, ts1)

/-! ## Opportunity detector (agent.py, `estimate_fair_value` /
`find_opportunities`) -/

/-- A market snapshot as consumed by `find_opportunities`: id, question text,
current quoted price. -/
structure Market where
  id : String
  question : String
  current_price : ℚ
  deriving Repr, DecidableEq

/-- The JSON object extracted from the model's reply, with fields possibly
missing: `estimate_fair_value` checks that `probability`, `confidence` and
`reasoning` are all present. -/
structure RawResponse where
  probability : Option ℚ
  confidence : Option String
  reasoning : Option String
  deriving Repr, DecidableEq

/-- A validated estimate. -/
structure Estimate where
  probability : ℚ
  confidence : String
  reasoning : String
  deriving Repr, DecidableEq

/-- The validation part of `PolymarketTrader.estimate_fair_value`: reject
unless all required fields are present, the probability lies in [0,1], and the
confidence level is one of low/medium/high. -/
def validate_estimate (raw : RawResponse) : Option Estimate :=
  match raw.probability, raw.confidence, raw.reasoning with
  | some p, some c, some r =>
    if 0 ≤ p ∧ p ≤ 1 then
      if c = "low" ∨ c = "medium" ∨ c = "high" then some ⟨p, c, r⟩
      else none
    else none
  | _, _, _ => none

/-- Embedding of `PolymarketTrader.estimate_fair_value` against an abstract
fair-value oracle (research call + model call + JSON extraction): `none`
covers an oracle exception, empty research, or an unparseable reply; a
returned raw object is then validated. -/
def estimate_fair_value (oracle : Market → Option RawResponse) (m : Market) :
    Option Estimate :=
  (oracle m).bind validate_estimate

/-- An opportunity record as appended by `find_opportunities`. -/
structure Opportunity where
  market : Market
  fair_value : ℚ
  current_price : ℚ
  edge : ℚ
  confidence : String
  reasoning : String
  deriving Repr, DecidableEq

/-- Research/analysis cap: `max_to_research = 50`. -/
def max_to_research : ℕ := 50

/-- Per-market body of the `find_opportunities` loop: skip on oracle failure
or invalid estimate, skip low confidence, keep when the absolute edge meets
the mispricing threshold. -/
def analyze_market (oracle : Market → Option RawResponse)
    (mispricing_threshold : ℚ) (m : Market) : Option Opportunity :=
  match estimate_fair_value oracle m with
  | none => none
  | some est =>
    if est.confidence = "low" then none
    else
      let fair_value := est.probability
      let current_price := m.current_price
      let edge := |fair_value - current_price|
      if mispricing_threshold ≤ edge then
        some ⟨m, fair_value, current_price, edge, est.confidence, est.reasoning⟩
      else none

/-- Embedding of `PolymarketTrader.find_opportunities`: iterate over at most
`max_to_research` markets, each per-market failure skipping only that market. -/
def find_opportunities (oracle : Market → Option RawResponse)
    (mispricing_threshold : ℚ) (markets : List Market) : List Opportunity :=
  (markets.take max_to_research).filterMap
    (analyze_market oracle mispricing_threshold)

/-! ## Cycle controller (agent.py, `check_stop_loss` / `run_cycle`) -/

/-- The validated configuration (`_load_config` requires exactly these
fields). -/
structure Config where
  bankroll : ℚ
  mispricing_threshold : ℚ
  max_kelly_fraction : ℚ
  scan_interval_minutes : ℚ
  max_positions : ℕ
  stop_loss_bankroll : ℚ
  deriving Repr, DecidableEq

/-- A position record as stored in positions.json and manipulated by
`run_cycle` (agent-side dict, without token id). -/
structure PosEntry where
  market : String
  market_id : String
  side : String
  entry_price : ℚ
  current_price : ℚ
  size : ℚ
  unrealized_pnl : ℚ
  opened_at : String
  deriving Repr, DecidableEq

/-- Embedding of `PolymarketTrader.check_stop_loss`: deployed capital is the
sum of position sizes from the positions file; trip when
bankroll - deployed ≤ stop_loss_bankroll. -/
def check_stop_loss (cfg : Config) (positions : List PosEntry) : Bool :=
  let deployed := (positions.map (·.size)).sum
  let current_bankroll := cfg.bankroll - deployed
  decide (current_bankroll ≤ cfg.stop_loss_bankroll)

/-- Result of an order-gateway call (`place_order` via the publisher). -/
structure OrderResult where
  order_id : String
  status : String
  deriving Repr, DecidableEq

/-- A trade record as built by `place_trade` and appended to the trade log. -/
structure Trade where
  timestamp : String
  dry_run : Bool
  market : String
  market_id : String
  side : String
  size : ℚ
  price : ℚ
  fair_value : ℚ
  edge : ℚ
  confidence : String
  reasoning : String
  status : String
  deriving Repr, DecidableEq

/-- Embedding of `PolymarketTrader.place_trade`: size the position, derive the
side by comparing fair value with the market price, and either simulate
(dry-run) or call the order gateway; a gateway failure yields `none`. The
rate-limiter call inside only delays and is timing-irrelevant here. -/
def place_trade (cfg : Config) (dry_run : Bool)
    (gateway : Opportunity → Option OrderResult) (now : String)
    (opp : Opportunity) : Option Trade :=
  let position_size :=
    calculate_position_size opp.fair_value cfg.max_kelly_fraction cfg.bankroll
  let side := if opp.current_price < opp.fair_value then "BUY" else "SELL"
  let trade : Trade :=
    { timestamp := now, dry_run := dry_run,
      market := opp.market.question, market_id := opp.market.id,
      side := side, size := position_size, price := opp.current_price,
      fair_value := opp.fair_value, edge := opp.edge,
      confidence := opp.confidence, reasoning := opp.reasoning,
      status := if dry_run then "simulated" else "open" }
  if dry_run then some trade
  else
    match gateway opp with
    | some res => some { trade with status := res.status }
    | none => none

/-- The cycle-summary record written to the scan log at the end of a full
cycle. -/
structure ScanResult where
  markets_scanned : ℕ
  opportunities_found : ℕ
  trades_executed : ℕ
  cycle_duration_seconds : ℚ
  serenbucks_balance : ℚ
  polymarket_balance : ℚ
  deriving Repr, DecidableEq

/-- The environment one `run_cycle` invocation runs against: configuration,
balances snapshot, persisted positions, fetched markets, the abstract
fair-value oracle and order gateway, and the wall clock. -/
structure CycleEnv where
  cfg : Config
  dry_run : Bool
  serenbucks : ℚ
  polymarket_balance : ℚ
  positions : List PosEntry
  markets : List Market
  oracle : Market → Option RawResponse
  gateway : Opportunity → Option OrderResult
  now : String
  duration : ℚ

/-- Observable outcome of one cycle: trades executed, the persisted position
set afterwards, and the scan-log entry appended (if any). -/
structure CycleOutcome where
  trades_executed : ℕ
  positions : List PosEntry
  scan_entry : Option ScanResult

/-- The position dict appended by `run_cycle` after a successful non-dry-run
trade. -/
def posEntryOfTrade (t : Trade) : PosEntry :=
  { market := t.market, market_id := t.market_id, side := t.side,
    entry_price := t.price, current_price := t.price, size := t.size,
    unrealized_pnl := 0, opened_at := t.timestamp }

/-- Embedding of `PolymarketTrader.run_cycle`: balance guard, stop-loss
guard, capacity guard and empty-market guard each `return` early (no scan-log
write); otherwise find opportunities, execute up to the remaining capacity,
persist positions when a real trade happened, and append the cycle summary. -/
def run_cycle (env : CycleEnv) : CycleOutcome :=
  if env.serenbucks < 1 then
    ⟨0, env.positions, none⟩
  else if check_stop_loss env.cfg env.positions then
    ⟨0, env.positions, none⟩
  else if env.cfg.max_positions ≤ env.positions.length then
    ⟨0, env.positions, none⟩
  else if env.markets = [] then
    ⟨0, env.positions, none⟩
  else
    let opportunities :=
      find_opportunities env.oracle env.cfg.mispricing_threshold env.markets
    let max_new_positions := env.cfg.max_positions - env.positions.length
    let executed := (opportunities.take max_new_positions).filterMap
      (place_trade env.cfg env.dry_run env.gateway env.now)
    let trades_executed := executed.length
    let positions :=
      if ¬env.dry_run ∧ 0 < trades_executed then
        env.positions ++ executed.map posEntryOfTrade
      else env.positions
    ⟨trades_executed, positions,
      some ⟨env.markets.length, opportunities.length, trades_executed,
            env.duration, env.serenbucks, env.polymarket_balance⟩⟩

/-! ## Helper lemmas -/

/-- Rounding an exact integer changes nothing. -/
lemma pyRound_intCast (n : ℤ) : pyRound (n : ℚ) = n := by
  unfold pyRound
  norm_num

/-- Rounding to 2 decimals is idempotent. -/
lemma round2_idem (q : ℚ) : round2 (round2 q) = round2 q := by
  unfold round2
  rw [div_mul_cancel₀ _ (by norm_num : (100:ℚ) ≠ 0), pyRound_intCast]

/-- Dict assignment followed by lookup at the same key returns the assigned
value. -/
lemma lookup_dictInsert (l : List (String × Position)) (k : String)
    (v : Position) : (dictInsert l k v).lookup k = some v := by
  induction l with
  | nil => simp [dictInsert, List.lookup]
  | cons hd tl ih =>
    obtain ⟨k', v'⟩ := hd
    by_cases h : k' = k
    · simp [dictInsert, h, List.lookup]
    · have hk : (k == k') = false := beq_eq_false_iff_ne.mpr (Ne.symm h)
      simp [dictInsert, h, List.lookup, hk, ih]

/-! ## Claim theorems -/

/-- C1, counterexample: at fair value 1/2, max Kelly fraction 1/10 and
bankroll 5 — all within the claim's ranges — the $1 floor makes the stake
exceed maxKelly × bankroll = 1/2. -/
theorem c1_kelly_cap_counterexample :
    (0:ℚ) ≤ 1/2 ∧ (1:ℚ)/2 ≤ 1 ∧ (0:ℚ) < 1/10 ∧ (1:ℚ)/10 ≤ 1 ∧ (0:ℚ) < 5 ∧
    ¬ calculate_position_size (1/2) (1/10) 5 ≤ (1/10) * 5 := by
  norm_num [calculate_position_size]

/-- C1, amended: for p ∈ [0,1], maxKelly ∈ (0,1], bankroll > 0, the stake is
at least $1 and at most the larger of maxKelly × bankroll and $1 (the $1
minimum-ticket floor is applied after the Kelly cap and can exceed it). -/
theorem calculate_position_size_bounds (p maxKelly bankroll : ℚ)
    (hp0 : 0 ≤ p) (hp1 : p ≤ 1) (hk0 : 0 < maxKelly) (hk1 : maxKelly ≤ 1)
    (hb : 0 < bankroll) :
    1 ≤ calculate_position_size p maxKelly bankroll ∧
    calculate_position_size p maxKelly bankroll ≤ max (maxKelly * bankroll) 1 := by
  unfold calculate_position_size
  constructor
  · exact le_max_right _ _
  · apply max_le_max_right
    calc bankroll * min |(p * (1 + 1) - 1) / 1 * (1/4)| maxKelly
        ≤ bankroll * maxKelly :=
          mul_le_mul_of_nonneg_left (min_le_right _ _) hb.le
      _ = maxKelly * bankroll := mul_comm _ _

/-- C1, witness: the bounds at p = 3/4, maxKelly = 1/2, bankroll = 100. -/
theorem calculate_position_size_bounds_witness :
    1 ≤ calculate_position_size (3/4) (1/2) 100 ∧
    calculate_position_size (3/4) (1/2) 100 ≤ max ((1/2) * 100) 1 :=
  calculate_position_size_bounds (3/4) (1/2) 100 (by norm_num) (by norm_num)
    (by norm_num) (by norm_num) (by norm_num)

/-- C3, counterexample: a timestamp exactly equal to the cutoff now − window
(here 60 − 60 = 0) is NOT discarded by the pruning step, contrary to the
claim that it is treated as expired. -/
theorem c3_cutoff_counterexample :
    pruneTimestamps [(60:ℚ) - 60] (60 - 60) = [60 - 60] ∧
    pruneTimestamps [(60:ℚ) - 60] (60 - 60) ≠ [] := by
  norm_num [pruneTimestamps]

/-- C3, amended: the pruning comparison is strict, so only timestamps
strictly older than now − window are discarded; a timestamp exactly at the
cutoff is retained as still inside the window. -/
theorem pruneTimestamps_cutoff_strict (now window t : ℚ) (rest : List ℚ)
    (ht : t < now - window) :
    pruneTimestamps ((now - window) :: rest) (now - window) =
      (now - window) :: rest ∧
    pruneTimestamps (t :: rest) (now - window) =
      pruneTimestamps rest (now - window) := by
  constructor
  · simp [pruneTimestamps]
  · simp [pruneTimestamps, ht]

/-- C3, amended witness: the pruning behaviour at cutoff 0 with an expired
timestamp −5. -/
theorem pruneTimestamps_cutoff_strict_witness :
    pruneTimestamps [(60:ℚ) - 60] (60 - 60) = [60 - 60] ∧
    pruneTimestamps [(-5:ℚ)] (60 - 60) = pruneTimestamps [] (60 - 60) :=
  pruneTimestamps_cutoff_strict 60 60 (-5) [] (by norm_num)

/-- C10: the implied-shares division in `update_price` is a division by zero
for a BUY position at entry price 0 and for a SELL position at entry price 1
(both inside the documented [0,1] price range); for all other entry prices on
those sides the update succeeds — there is no guard, only the implicit
precondition. -/
theorem update_price_division_totality :
    (∀ (pos : Position) (cp : ℚ), pos.side = "BUY" → pos.entry_price = 0 →
      pos.update_price cp = none) ∧
    (∀ (pos : Position) (cp : ℚ), pos.side = "SELL" → pos.entry_price = 1 →
      pos.update_price cp = none) ∧
    (∀ (pos : Position) (cp : ℚ), pos.side = "BUY" → pos.entry_price ≠ 0 →
      (pos.update_price cp).isSome = true) ∧
    (∀ (pos : Position) (cp : ℚ), pos.side = "SELL" → pos.entry_price ≠ 1 →
      (pos.update_price cp).isSome = true) := by
  refine ⟨?_, ?_, ?_, ?_⟩ <;> intro pos cp hside hentry
  · simp [Position.update_price, hside, hentry]
  · simp [Position.update_price, hside, hentry]
  · simp [Position.update_price, hside, hentry]
  · have h1 : ¬(1 - pos.entry_price = 0) := by
      rw [sub_eq_zero]
      exact fun hh => hentry hh.symm
    simp [Position.update_price, hside, h1]

/-- C10, witness: a BUY position opened at entry price 0 fails to update. -/
theorem update_price_division_totality_witness :
    (Position.mk_new "q" "m" "tok" "BUY" 0 100 "t0").update_price (1/2) =
      none :=
  update_price_division_totality.1 _ _ rfl rfl

/-- C5: `update_price` sets unrealized P&L to
(currentPrice − entryPrice) × (size / entryPrice) on the BUY side and to
(entryPrice − currentPrice) × (size / (1 − entryPrice)) on the SELL side; a
BUY at entry 0.40, size 100, current 0.60 yields 50, and a SELL at entry
0.70, size 100, current 0.50 yields 200/3 = 66.666…, which rounds to 66.67 at
the ledger's 2-decimal P&L precision. -/
theorem update_price_pnl_formulas :
    (∀ (pos : Position) (cp : ℚ), pos.side = "BUY" → pos.entry_price ≠ 0 →
      pos.update_price cp =
        some { pos with current_price := cp,
                        unrealized_pnl :=
                          (cp - pos.entry_price) * (pos.size / pos.entry_price) }) ∧
    (∀ (pos : Position) (cp : ℚ), pos.side = "SELL" → pos.entry_price ≠ 1 →
      pos.update_price cp =
        some { pos with current_price := cp,
                        unrealized_pnl :=
                          (pos.entry_price - cp) *
                            (pos.size / (1 - pos.entry_price)) }) ∧
    ((Position.mk_new "q" "m" "tok" "BUY" (2/5) 100 "t0").update_price (3/5)).map
      (·.unrealized_pnl) = some 50 ∧
    ((Position.mk_new "q" "m" "tok" "SELL" (7/10) 100 "t0").update_price (1/2)).map
      (·.unrealized_pnl) = some (200/3) ∧
    round2 (200/3) = 6667/100 := by
  refine ⟨?_, ?_, ?_, ?_, ?_⟩
  · intro pos cp hside hentry
    simp [Position.update_price, hside, hentry]
  · intro pos cp hside hentry
    have h1 : ¬(1 - pos.entry_price = 0) := by
      rw [sub_eq_zero]
      exact fun hh => hentry hh.symm
    simp [Position.update_price, hside, h1]
  · norm_num [Position.update_price, Position.mk_new]
  · have hss : ("SELL" = "BUY") = False := by decide
    norm_num [Position.update_price, Position.mk_new, hss]
  · have h100 : (200:ℚ)/3 * 100 = 20000/3 := by norm_num
    have hfloor : ⌊(20000:ℚ)/3⌋ = 6666 := by
      rw [Int.floor_eq_iff]
      norm_num
    unfold round2 pyRound
    rw [h100, hfloor]
    norm_num

/-- C5, witness: the BUY formula applied at entry 2/5, size 100, current
price 3/5. -/
theorem update_price_pnl_formulas_witness :
    (Position.mk_new "q" "m" "tok" "BUY" (2/5) 100 "t0").update_price (3/5) =
      some { Position.mk_new "q" "m" "tok" "BUY" (2/5) 100 "t0" with
               current_price := 3/5,
               unrealized_pnl :=
                 ((3:ℚ)/5 - (Position.mk_new "q" "m" "tok" "BUY" (2/5) 100 "t0").entry_price) *
                   ((Position.mk_new "q" "m" "tok" "BUY" (2/5) 100 "t0").size /
                     (Position.mk_new "q" "m" "tok" "BUY" (2/5) 100 "t0").entry_price) } :=
  update_price_pnl_formulas.1 (Position.mk_new "q" "m" "tok" "BUY" (2/5) 100 "t0")
    (3/5) rfl (by norm_num [Position.mk_new])

/-- C8: one `to_dict`/`from_dict` round trip reproduces every field except
that unrealized P&L is rounded to 2 decimals, and a second round trip
changes nothing. -/
theorem position_round_trip (pos : Position) :
    Position.from_dict (Position.to_dict pos) =
      { pos with unrealized_pnl := round2 pos.unrealized_pnl } ∧
    Position.from_dict (Position.to_dict (Position.from_dict (Position.to_dict pos))) =
      Position.from_dict (Position.to_dict pos) := by
  have h1 : ∀ p : Position, Position.from_dict (Position.to_dict p) =
      { p with unrealized_pnl := round2 p.unrealized_pnl } := by
    intro p
    simp [Position.from_dict, Position.to_dict, Position.mk_new]
  refine ⟨h1 pos, ?_⟩
  rw [h1, h1]
  simp [round2_idem]

/-- C9, counterexample: a tracker holding a BUY position of size 50 in market
m1; `add_position` for m1 with different side/price/size replaces the stored
record instead of failing or returning the old one. -/
theorem c9_add_position_counterexample :
    ((PositionTracker.mk [("m1", Position.mk_new "q" "m1" "tok" "BUY" (2/5) 50 "t0")]).add_position
        "q" "m1" "tok" "SELL" (3/5) 80 "t1").1.get_position "m1" ≠
      some (Position.mk_new "q" "m1" "tok" "BUY" (2/5) 50 "t0") ∧
    (((PositionTracker.mk [("m1", Position.mk_new "q" "m1" "tok" "BUY" (2/5) 50 "t0")]).add_position
        "q" "m1" "tok" "SELL" (3/5) 80 "t1").1.get_position "m1").map (·.size) =
      some 80 := by
  constructor <;>
    norm_num [PositionTracker.add_position, PositionTracker.get_position,
      dictInsert, List.lookup, Position.mk_new]

/-- C9, amended: `add_position` unconditionally builds a fresh Position and
overwrites any existing record under that market id — the previous side,
entry price, size and opened timestamp are lost. -/
theorem add_position_overwrites (tracker : PositionTracker)
    (market market_id token_id side : String) (entry_price size : ℚ)
    (now : String) :
    (tracker.add_position market market_id token_id side entry_price size
        now).1.get_position market_id =
      some (Position.mk_new market market_id token_id side entry_price size now) := by
  unfold PositionTracker.add_position PositionTracker.get_position
  exact lookup_dictInsert _ _ _

/-- A concrete environment whose open-position count equals `max_positions`:
balance and stop-loss guards pass, the capacity guard trips. -/
def envC2 : CycleEnv :=
  { cfg := { bankroll := 1000, mispricing_threshold := 1,
             max_kelly_fraction := 1, scan_interval_minutes := 30,
             max_positions := 2, stop_loss_bankroll := 100 },
    dry_run := false, serenbucks := 5, polymarket_balance := 20,
    positions := [{ market := "q1", market_id := "m1", side := "BUY",
                    entry_price := 0, current_price := 0, size := 10,
                    unrealized_pnl := 0, opened_at := "t0" },
                  { market := "q2", market_id := "m2", side := "BUY",
                    entry_price := 0, current_price := 0, size := 10,
                    unrealized_pnl := 0, opened_at := "t0" }],
    markets := [{ id := "mX", question := "qX", current_price := 0 }],
    oracle := fun _ => none, gateway := fun _ => none,
    now := "t1", duration := 3 }

/-- C2, counterexample: in `envC2` the open-position count equals
`max_positions`, yet the aborted cycle appends no scan-log summary at all —
contrary to the claim that a summary with zero opportunities is still
reported. -/
theorem c2_capacity_counterexample :
    envC2.positions.length = envC2.cfg.max_positions ∧
    (run_cycle envC2).scan_entry = none := by
  constructor
  · rfl
  · norm_num [run_cycle, envC2, check_stop_loss]

/-- C2, amended: a cycle summary is appended to the scan log iff the cycle
passes all four guards (balance, stop-loss, capacity, non-empty market
list); any guard-aborted cycle — including when the open-position count
equals `max_positions` — returns early and appends nothing. When a summary
is appended it records markets scanned, opportunities found, trades
executed, duration and both balances. -/
theorem run_cycle_scan_entry_iff (env : CycleEnv) :
    ((run_cycle env).scan_entry.isSome = true ↔
      (¬ env.serenbucks < 1 ∧ check_stop_loss env.cfg env.positions = false ∧
       env.positions.length < env.cfg.max_positions ∧ env.markets ≠ [])) ∧
    ((run_cycle env).scan_entry = none ∨
      (run_cycle env).scan_entry =
        some { markets_scanned := env.markets.length,
               opportunities_found :=
                 (find_opportunities env.oracle env.cfg.mispricing_threshold
                   env.markets).length,
               trades_executed := (run_cycle env).trades_executed,
               cycle_duration_seconds := env.duration,
               serenbucks_balance := env.serenbucks,
               polymarket_balance := env.polymarket_balance }) := by
  constructor
  · unfold run_cycle
    split_ifs with h1 h2 h3 h4 <;> simp_all
  · unfold run_cycle
    split_ifs with h1 h2 h3 h4 <;> simp

/-- C6: whenever bankroll minus total deployed capital is at most
`stop_loss_bankroll`, the cycle executes zero trades and leaves the
persisted positions untouched. -/
theorem run_cycle_stop_loss_halts (env : CycleEnv)
    (h : env.cfg.bankroll - (env.positions.map (·.size)).sum ≤
      env.cfg.stop_loss_bankroll) :
    (run_cycle env).trades_executed = 0 ∧
    (run_cycle env).positions = env.positions := by
  have hs : check_stop_loss env.cfg env.positions = true := by
    simp [check_stop_loss]
    linarith
  unfold run_cycle
  split_ifs <;> simp_all

/-- The spec's stop-loss example: bankroll 1000, one deployed position of
950, stop-loss floor 100. -/
def envC6 : CycleEnv :=
  { cfg := { bankroll := 1000, mispricing_threshold := 1,
             max_kelly_fraction := 1, scan_interval_minutes := 30,
             max_positions := 5, stop_loss_bankroll := 100 },
    dry_run := false, serenbucks := 5, polymarket_balance := 20,
    positions := [{ market := "q1", market_id := "m1", side := "BUY",
                    entry_price := 0, current_price := 0, size := 950,
                    unrealized_pnl := 0, opened_at := "t0" }],
    markets := [], oracle := fun _ => none, gateway := fun _ => none,
    now := "t1", duration := 3 }

/-- C6, witness: with bankroll 1000, deployed 950 and floor 100 the guard
trips (available 50 ≤ 100) and the cycle aborts with zero trades. -/
theorem run_cycle_stop_loss_halts_witness :
    (run_cycle envC6).trades_executed = 0 ∧
    (run_cycle envC6).positions = envC6.positions :=
  run_cycle_stop_loss_halts envC6 (by norm_num [envC6])

/-- C4: the rate-limit check is a blocking policy. Pruning at now − window,
if the deque still holds at least `maxOrders` timestamps the call computes
the wait until the oldest timestamp exits the window — exactly
oldest + window − now — sleeps that long, and returns with the deque intact:
no submission is ever dropped, only delayed. -/
theorem check_rate_limit_blocks (maxOrders : ℕ) (window : ℚ) (ts : List ℚ)
    (now oldest : ℚ) (rest : List ℚ)
    (hp : pruneTimestamps ts (now - window) = oldest :: rest)
    (hlen : maxOrders ≤ (oldest :: rest).length)
    (hw : now < oldest + window) :
    check_rate_limit maxOrders window ts now =
      (oldest + window - now, oldest :: rest) := by
  simp only [check_rate_limit, hp]
  rw [if_pos hlen, if_pos (sub_pos.mpr hw)]
  have hc : now + (oldest + window - now) - window = oldest := by ring
  rw [hc]
  simp [pruneTimestamps]

/-- C4, witness: with a cap of 2 and a 60-second window, two live timestamps
0 and 10 at now = 30 make the third call wait 0 + 60 − 30 = 30 seconds and
keep both timestamps. -/
theorem check_rate_limit_blocks_witness :
    check_rate_limit 2 60 [(0:ℚ), 10] 30 = (0 + 60 - 30, 0 :: [10]) :=
  check_rate_limit_blocks 2 60 [0, 10] 30 0 [10]
    (by norm_num [pruneTimestamps]) (by norm_num) (by norm_num)

/-- An opportunity produced by `analyze_market` records the very market it
was produced from. -/
lemma analyze_market_eq_some {oracle : Market → Option RawResponse} {θ : ℚ}
    {a : Market} {opp : Opportunity}
    (h : analyze_market oracle θ a = some opp) : opp.market = a := by
  cases he : estimate_fair_value oracle a with
  | none => simp [analyze_market, he] at h
  | some est =>
    simp only [analyze_market, he] at h
    split_ifs at h with h1 h2
    cases Option.some.inj h
    rfl

/-- `analyze_market` succeeds exactly when the oracle's reply validates, the
confidence is not low, and the edge meets the threshold. -/
lemma analyze_market_isSome_iff (oracle : Market → Option RawResponse)
    (θ : ℚ) (m : Market) :
    (∃ opp, analyze_market oracle θ m = some opp) ↔
      ∃ est, estimate_fair_value oracle m = some est ∧
        est.confidence ≠ "low" ∧ θ ≤ |est.probability - m.current_price| := by
  cases he : estimate_fair_value oracle m with
  | none => simp [analyze_market, he]
  | some est =>
    simp only [analyze_market, he]
    constructor
    · rintro ⟨opp, h⟩
      split_ifs at h with h1 h2
      exact ⟨est, rfl, h1, h2⟩
    · rintro ⟨est', he', h1, h2⟩
      cases Option.some.inj he'
      rw [if_neg h1, if_pos h2]
      exact ⟨_, rfl⟩

/-- C7, amended: a market yields an opportunity record iff it is among the
first `max_to_research` (= 50) snapshots considered and the oracle's reply
validates (all fields present, probability in [0,1], allowed confidence
label), its confidence is not low, and its absolute edge meets the
mispricing threshold; a per-market oracle failure (`none`) skips only that
market. -/
theorem find_opportunities_mem_iff (oracle : Market → Option RawResponse)
    (θ : ℚ) (markets : List Market) (m : Market) :
    (∃ opp ∈ find_opportunities oracle θ markets, opp.market = m) ↔
      (m ∈ markets.take max_to_research ∧
       ∃ est, estimate_fair_value oracle m = some est ∧
         est.confidence ≠ "low" ∧ θ ≤ |est.probability - m.current_price|) := by
  unfold find_opportunities
  rw [← analyze_market_isSome_iff oracle θ m]
  constructor
  · rintro ⟨opp, hmem, hm⟩
    rw [List.mem_filterMap] at hmem
    obtain ⟨a, ha, hfa⟩ := hmem
    have ham : a = m := by rw [← analyze_market_eq_some hfa, hm]
    subst ham
    exact ⟨ha, ⟨opp, hfa⟩⟩
  · rintro ⟨hmem, ⟨opp, hopp⟩⟩
    exact ⟨opp, List.mem_filterMap.mpr ⟨m, hmem, hopp⟩,
      analyze_market_eq_some hopp⟩

/-- The 51st market of the counterexample list. -/
def marketA : Market := { id := "mA", question := "qA", current_price := 0 }

/-- A filler market repeated 50 times. -/
def marketB : Market := { id := "mB", question := "qB", current_price := 0 }

/-- An oracle that answers every market with a fully valid, high-confidence
probability-1 estimate. -/
def oracleC7 : Market → Option RawResponse :=
  fun _ => some { probability := some 1, confidence := some "high",
                  reasoning := some "r" }

/-- A 51-market list whose last entry is `marketA`. -/
def marketsC7 : List Market := List.replicate 50 marketB ++ [marketA]

/-- C7, counterexample: `marketA` sits at position 51 of the market list with
a perfectly valid high-confidence estimate and edge 1 ≥ threshold 1, yet it
is excluded from the opportunity list because only the first 50 markets are
analyzed. -/
theorem c7_research_cap_counterexample :
    marketA ∈ marketsC7 ∧
    (∃ est, estimate_fair_value oracleC7 marketA = some est ∧
      est.confidence ≠ "low" ∧ (1:ℚ) ≤ |est.probability - marketA.current_price|) ∧
    ¬ (∃ opp ∈ find_opportunities oracleC7 1 marketsC7, opp.market = marketA) := by
  refine ⟨?_, ⟨⟨1, "high", "r"⟩, ?_, ?_, ?_⟩, ?_⟩
  · simp [marketsC7]
  · norm_num [estimate_fair_value, validate_estimate, oracleC7]
  · decide
  · norm_num [marketA]
  · rintro ⟨opp, hmem, hm⟩
    unfold find_opportunities at hmem
    have htake : marketsC7.take max_to_research = List.replicate 50 marketB := by
      unfold marketsC7 max_to_research
      rw [show (50:ℕ) = (List.replicate 50 marketB).length by simp]
      exact List.take_left _ _
    rw [htake, List.mem_filterMap] at hmem
    obtain ⟨a, ha, hfa⟩ := hmem
    have h2 := analyze_market_eq_some hfa
    rw [List.eq_of_mem_replicate ha] at h2
    rw [h2] at hm
    exact absurd hm (by decide)

end PolymarketTrader
